import Mathlib

/-!
# Shallow embedding of the newsapi-scraper pipeline

Verification development for the fetch → dedupe → filter → enrich pipeline
of the news scraper (sources: `news_api.py`, `scraper.py`, with the driver
loop from `apify_main.py`).

Modelling conventions:
* Python strings are Lean `String`; `str.lower()` is modelled for ASCII
  (`Char.toLower`), which is enough for every comparison in the claims
  because both sides of each equivalence use the same model function.
* Python floats are modelled as exact rationals (`ℚ`).  The thresholds
  0.6, 0.8 and 0.15 become 3/5, 4/5 and 3/20.  For the operand sizes that
  occur (ratios of small integer counts) the IEEE-754 comparisons in the
  source agree with the exact rational comparisons.
* Python `set` objects are modelled by duplicate-free lists together with
  `setInsert`; only membership and insertion are used, except for the
  `list(set)` enumeration used by the content-similarity window, which is
  modelled by an explicit enumeration oracle (CPython leaves iteration
  order of a `set` unspecified).
* External collaborators (`requests`, the NewsAPI client, `trafilatura`,
  `hash`, `difflib.SequenceMatcher.ratio`, wall-clock time) are supplied
  as oracle functions in an `Oracles` record; repository code is embedded
  from the source.
* Exceptions crossing a modelled boundary are `Except PyErr`; handled
  failures inside an external call are `Option`/empty results.
-/

abbrev PyErr := String

/-! ## String helpers (Python primitives) -/

/-- ASCII lowering of a string, modelling Python `str.lower()`. -/
def pyLower (s : String) : String := ⟨s.data.map Char.toLower⟩

/-- Does `pat` occur at the head of `hay`? (helper for substring search) -/
def charsMatchAt : List Char → List Char → Bool
  | [], _ => true
  | _ :: _, [] => false
  | p :: ps, c :: cs => p == c && charsMatchAt ps cs

/-- Does `pat` occur anywhere in `hay`? (helper for substring search) -/
def charsContain (pat : List Char) : List Char → Bool
  | [] => charsMatchAt pat []
  | c :: rest => charsMatchAt pat (c :: rest) || charsContain pat rest

/-- Python substring containment `pat in s`. -/
def strIn (pat s : String) : Bool := charsContain pat.data s.data

/-- Splits a character list at separators chosen by `p`, accumulating the
current (reversed) word in `acc` and dropping empty pieces. -/
def wordsAux (p : Char → Bool) : List Char → List Char → List String
  | [], acc => if acc.isEmpty then [] else [String.mk acc.reverse]
  | c :: cs, acc =>
    if p c then
      if acc.isEmpty then wordsAux p cs []
      else String.mk acc.reverse :: wordsAux p cs []
    else wordsAux p cs (c :: acc)

/-- Python `str.split()` with no argument: split on whitespace runs,
dropping empty pieces. -/
def pySplitWs (s : String) : List String :=
  wordsAux Char.isWhitespace s.data []

/-- Splits a character list at every comma, keeping empty pieces
(accumulator as in `wordsAux`). -/
def splitCommaAux : List Char → List Char → List String
  | [], acc => [String.mk acc.reverse]
  | c :: cs, acc =>
    if c = ',' then String.mk acc.reverse :: splitCommaAux cs []
    else splitCommaAux cs (c :: acc)

/-- Python `str.split(',')`: split at every comma, keeping empty pieces. -/
def pySplitComma (s : String) : List String := splitCommaAux s.data []

/-- Drops leading whitespace characters. -/
def dropLeadingWs : List Char → List Char
  | [] => []
  | c :: cs => if c.isWhitespace then dropLeadingWs cs else c :: cs

/-- Python `str.strip()`: remove leading and trailing whitespace. -/
def pyStrip (s : String) : String :=
  String.mk (dropLeadingWs (dropLeadingWs s.data).reverse).reverse

/-- Python `set.add` on a set modelled as a duplicate-free list. -/
def setInsert [DecidableEq α] (x : α) (s : List α) : List α :=
  if x ∈ s then s else s ++ [x]

/-- Python dict lookup `d.get(k)` for a string-keyed dict modelled as an
association list. -/
def dictGet (d : List (String × String)) (k : String) : Option String :=
  (d.find? (fun p => p.1 = k)).map (·.2)

/-- Python dict assignment `d[k] = v`. -/
def dictPut (k v : String) (d : List (String × String)) : List (String × String) :=
  if d.any (fun p => p.1 = k) then
    d.map (fun p => if p.1 = k then (k, v) else p)
  else d ++ [(k, v)]

/-- Python truthiness of an optional string (`None` and `""` are falsy). -/
def optTruthy : Option String → Bool
  | some s => s ≠ ""
  | none => false

/-! ## Retry loop (`NewsAPIClient._make_request`, lines 48–74, and
`ArticleScraper._download_content`, lines 13–32, share this skeleton)

`attempt k` is the outcome of the `k`-th try (0-indexed): `some r` for a
success (status 200 / truthy download), `none` for a handled failure
(non-200 status, caught transport error, falsy download).  The second
component of the result is the trace of `time.sleep` durations, in
seconds, in the order they are performed. -/

def retryGo (attempt : Nat → Option α) (maxRetries : Nat) :
    Nat → Nat → Option α × List Nat
  | _, 0 => (none, [])
  | currentTry, fuel + 1 =>
    if currentTry < maxRetries then
      match attempt currentTry with
      | some r => (some r, [])
      | none =>
        let ct := currentTry + 1
        -- `current_try += 1; if current_try < max_retries: time.sleep(2 ** current_try)`
        let sleeps := if ct < maxRetries then [2 ^ ct] else []
        let rest := retryGo attempt maxRetries ct fuel
        (rest.1, sleeps ++ rest.2)
    else (none, [])

/-- `NewsAPIClient._make_request`: up to `max_retries = 3` tries of the
underlying request, returning `None` after exhausting them. -/
def makeRequest (attempt : Nat → Option α) : Option α × List Nat :=
  retryGo attempt 3 0 3

/-! ## Title deduplication (`NewsAPIClient._get_title_words` and
`_is_similar_title`, lines 119–145) -/

/-- The `common_words` stop-word literal of `_get_title_words` (line 122). -/
def commonWords : List String :=
  ["the", "a", "an", "and", "or", "but", "in", "on", "at", "to", "for", "of", "with", "by"]

/-- `_get_title_words`: `set(word.lower() for word in title.split()
if word.lower() not in common_words)`. -/
def getTitleWords (title : String) : Finset String :=
  (((pySplitWs title).map pyLower).filter (fun w => w ∉ commonWords)).toFinset

/-- `_is_similar_title` with the default `similarity_threshold = 0.6`. -/
def isSimilarTitle (title1 title2 : String) : Bool :=
  if title1 = title2 then true
  else
    let words1 := getTitleWords title1
    let words2 := getTitleWords title2
    -- `if not words1 or not words2: return False`
    if words1.card = 0 ∨ words2.card = 0 then false
    else
      let intersection := (words1 ∩ words2).card
      let shorterLen := min words1.card words2.card
      -- `similarity = intersection / shorter_len`, exact rational arithmetic
      let similarity : ℚ := mkRat intersection shorterLen
      decide (similarity ≥ mkRat 3 5)

/-! ## Content deduplication (`NewsAPIClient._is_similar_content`,
lines 95–117, with `_get_content_similarity` as the `simRatio` oracle)

`pyHash` stands for Python's builtin `hash`, `simRatio` for
`SequenceMatcher(None, ·, ·).ratio()`, and `setEnum` for the enumeration
order CPython happens to produce for `list(self._content_hashes)` — the
source keeps `_content_hashes` in a plain unordered `set`, so the
enumeration is not a function of insertion order. -/

def isSimilarContent (pyHash : String → Int) (simRatio : String → String → ℚ)
    (setEnum : List Int → List Int) (contentHashes : List Int) (content : String) : Bool :=
  if content = "" then false
  else
    let contentHash := pyHash content
    if contentHash ∈ contentHashes then true
    else
      -- `recent_hashes = list(self._content_hashes)[-10:]`
      let enum := setEnum contentHashes
      let recentHashes := enum.drop (enum.length - 10)
      -- `similarity = self._get_content_similarity(content, str(seen_hash))`
      recentHashes.any (fun seenHash => decide (simRatio content (toString seenHash) > mkRat 4 5))

/-! ## Relevance filter (`NewsAPIClient._is_relevant_article`,
lines 155–214).  The `lru_cache` memoization is semantically invisible
(the function is pure), so it is not modelled. -/

/-- The `business_related_terms` literal (lines 171–172). -/
def businessRelatedTerms : List String :=
  ["business", "loan", "lending", "bank", "finance", "sba", "small business",
   "funding", "capital"]

/-- The `stop_words` literal of `_is_relevant_article` (line 189). -/
def stopWords : List String :=
  ["the", "a", "an", "and", "or", "but", "in", "on", "at", "to", "for", "of", "with", "by"]

/-- `text = f"{title} {description}".lower()` (line 162). -/
def relevanceText (title description : String) : String :=
  pyLower (title ++ " " ++ description)

/-- `search_phrases = [phrase.strip().lower() for phrase in search_term.split(',')]`. -/
def searchPhrases (searchTerm : String) : List String :=
  (pySplitComma searchTerm).map (fun phrase => pyLower (pyStrip phrase))

/-- `search_words = set(word.lower() for phrase in search_phrases for word in
phrase.split())` (lines 181–182); kept as a list since only `any` is taken. -/
def searchTermWords (searchTerm : String) : List String :=
  ((searchPhrases searchTerm).flatMap pySplitWs).map pyLower

/-- The stop-word-filtered `search_words` set of lines 190–194:
`word.strip()` for each split word of each (already lowercased) phrase,
kept when non-empty and not a stop word. -/
def meaningfulWords (searchTerm : String) : Finset String :=
  ((((searchPhrases searchTerm).flatMap pySplitWs).map (fun w => pyStrip w)).filter
    (fun w => w ≠ "" ∧ pyLower w ∉ stopWords)).toFinset

/-- `_is_relevant_article`: staged short-circuit relevance check. -/
def isRelevantArticle (title description searchTerm : String) : Bool :=
  let text := relevanceText title description
  -- branch 1: `matched_terms = [term for term in business_related_terms if term in text.lower()]`
  if businessRelatedTerms.any (fun t => strIn t (pyLower text)) then true
  -- branch 2: `any(word in text.lower() for word in search_words)`
  else if (searchTermWords searchTerm).any (fun w => strIn w (pyLower text)) then true
  else
    -- branch 3 (lines 188–214)
    let sw := meaningfulWords searchTerm
    -- `if not search_words: return False`
    if sw.card = 0 then false
    else
      let matched := sw.filter (fun w => strIn w text = true)
      -- `relevance_score = len(matches) / len(search_words)`, exact rationals
      let relevanceScore : ℚ := mkRat matched.card sw.card
      decide (relevanceScore ≥ mkRat 3 20)

/-! ## Data model -/

/-- A raw candidate entry of the NewsAPI response (`response['articles']`
element).  `content` and `description` are the `article.get(..., '')`
values with `None` collapsed to `""`; `isTestData` is
`article.get('is_test_data', False)` on the *raw* entry. -/
structure RawArticle where
  title : String
  url : String
  content : String
  description : String
  sourceName : String
  publishedAt : String
  isTestData : Bool
deriving Repr, DecidableEq

/-- An article dict as built by `fetch_articles` (lines 284–292) and
possibly enriched by `ArticleScraper.enrich_article`.  The three `Option`
fields model dict keys that are present only after enrichment. -/
structure Article where
  title : String
  url : String
  source : String
  date : String
  searchTerm : String
  description : String
  content : String
  fullContent : Option String := none
  scrapedAt : Option String := none
  scrapingSuccess : Option Bool := none
deriving Repr, DecidableEq

/-- The `processed_article` dict literal of lines 284–292.  Note the dict
has exactly these seven keys — in particular no `'is_test_data'` key. -/
def mkProcessed (raw : RawArticle) (searchTerm : String) : Article :=
  { title := raw.title
    url := raw.url
    source := raw.sourceName
    date := raw.publishedAt
    searchTerm := searchTerm
    description := raw.description
    content := raw.content }

/-- The in-memory dedup cache (`_seen_articles`, `_seen_titles`,
`_content_hashes`).  Each Python `set` is modelled as a duplicate-free
list in insertion order; only membership and insertion are relied upon. -/
structure Cache where
  seenUrls : List String
  seenTitles : List String
  contentHashes : List Int
deriving Repr, DecidableEq

/-- `ArticleScraper` state: the `downloaded_cache` dict (URL → extracted
full text). -/
structure ScrState where
  downloadedCache : List (String × String)
deriving Repr, DecidableEq

/-- External collaborators, supplied as oracles:
* `pyHash` — Python builtin `hash` on strings;
* `simRatio` — `SequenceMatcher(None, a, b).ratio()`;
* `setEnum` — the enumeration CPython produces for `list(s)` on the
  content-hash `set` (unspecified order);
* `getEverything t n` / `getTopHeadlines t n` — the NewsAPI client calls
  for term `t` with `page_size = n`; `.error` models a raised exception;
* `fetchUrl u k` — outcome of the `k`-th `trafilatura.fetch_url(u)`
  attempt (`none` = falsy result or caught exception);
* `extract d` — `trafilatura.extract(d, ...)` (`none` = falsy result or
  raised-and-caught exception);
* `nowIso` — `datetime.now().isoformat()`. -/
structure Oracles where
  pyHash : String → Int
  simRatio : String → String → ℚ
  setEnum : List Int → List Int
  getEverything : String → Nat → Except PyErr (List RawArticle)
  getTopHeadlines : String → Nat → Except PyErr (List RawArticle)
  fetchUrl : String → Nat → Option String
  extract : Option String → Option String
  nowIso : String

/-! ## Content enrichment (`ArticleScraper`, `scraper.py`) -/

/-- `ArticleScraper._download_content` (lines 13–32): the same retry
skeleton as `_make_request`, driven by `trafilatura.fetch_url`. -/
def downloadContent (ext : Oracles) (url : String) : Option String × List Nat :=
  retryGo (ext.fetchUrl url) 3 0 3

/-- `ArticleScraper.enrich_article` (lines 34–74).  Returns the (possibly
enriched) article and the updated scraper state. -/
def enrichArticle (ext : Oracles) (st : ScrState) (a : Article) : Article × ScrState :=
  -- `if not url: return article`
  if a.url = "" then (a, st)
  else
    let hit := dictGet st.downloadedCache a.url
    let fullContent : Option String :=
      match hit with
      | some cached => some cached
      | none => ext.extract (downloadContent ext a.url).1
    -- `if full_content: self.downloaded_cache[url] = full_content` (miss branch only)
    let st' : ScrState :=
      match hit with
      | some _ => st
      | none =>
        if optTruthy fullContent then
          ⟨dictPut a.url (fullContent.getD "") st.downloadedCache⟩
        else st
    if optTruthy fullContent then
      ({ a with fullContent := some (fullContent.getD "")
                scrapedAt := some ext.nowIso
                scrapingSuccess := some true }, st')
    else
      ({ a with scrapingSuccess := some false }, st')

/-! ## Fetch orchestration (`NewsAPIClient.fetch_articles`, lines 216–324,
and the per-term driver loop of `apify_main.main`, lines 19–22) -/

/-- The candidate-processing `for` loop of `fetch_articles`
(lines 249–314).  `acc` is the `articles` accumulator. -/
def fetchLoop (ext : Oracles) (searchTerm : String) (articleLimit : Nat) :
    List RawArticle → Cache → ScrState → List Article →
    List Article × Cache × ScrState
  | [], cache, scr, acc => (acc, cache, scr)
  | raw :: rest, cache, scr, acc =>
    -- `if url in self._seen_articles and not article.get('is_test_data', False): continue`
    if decide (raw.url ∈ cache.seenUrls) && !raw.isTestData then
      fetchLoop ext searchTerm articleLimit rest cache scr acc
    -- `if not ... and any(self._is_similar_title(title, seen_title) ...): continue`
    else if !raw.isTestData && cache.seenTitles.any (fun t => isSimilarTitle raw.title t) then
      fetchLoop ext searchTerm articleLimit rest cache scr acc
    -- `if not ... and content and self._is_similar_content(content): continue`
    else if !raw.isTestData && raw.content ≠ "" &&
        isSimilarContent ext.pyHash ext.simRatio ext.setEnum cache.contentHashes raw.content then
      fetchLoop ext searchTerm articleLimit rest cache scr acc
    -- `if not self._is_relevant_article(...): continue`
    else if !(isRelevantArticle raw.title raw.description searchTerm) then
      fetchLoop ext searchTerm articleLimit rest cache scr acc
    else
      let processed := mkProcessed raw searchTerm
      let enrichRes := enrichArticle ext scr processed
      -- `if not processed_article.get('is_test_data', False):` — the
      -- `processed_article` dict literal has no `'is_test_data'` key, so
      -- the `.get` is always `False` and this condition is always taken;
      -- the `else` branch ("Skipping cache for test article") is dead.
      let cache' : Cache :=
        -- `if article['url'] not in self._seen_articles:`
        if raw.url ∈ cache.seenUrls then cache
        else
          { seenUrls := setInsert raw.url cache.seenUrls
            seenTitles := setInsert raw.title cache.seenTitles
            contentHashes :=
              if raw.content ≠ "" then setInsert (ext.pyHash raw.content) cache.contentHashes
              else cache.contentHashes }
      let acc' := acc ++ [enrichRes.1]
      -- `if len(articles) >= article_limit: break`
      if acc'.length ≥ articleLimit then (acc', cache', enrichRes.2)
      else fetchLoop ext searchTerm articleLimit rest cache' enrichRes.2 acc'

/-- Result of one `fetch_articles` call; `saves` counts the
`_save_cache()` executions during the call. -/
structure FetchOut where
  articles : List Article
  cache : Cache
  scr : ScrState
  saves : Nat
deriving Repr, DecidableEq

/-- The `try`-block body of `fetch_articles` (lines 220–320): primary
`get_everything` query, `get_top_headlines` fallback, early empty return
(no cache save), candidate loop, then exactly one `_save_cache()`. -/
def fetchBody (ext : Oracles) (cache : Cache) (scr : ScrState)
    (searchTerm : String) (articleLimit : Nat) : Except PyErr FetchOut :=
  match ext.getEverything searchTerm (min (articleLimit * 5) 100) with
  | .error e => .error e
  | .ok primary =>
    match (if primary.isEmpty then
             ext.getTopHeadlines searchTerm (min (articleLimit * 2) 20)
           else .ok primary) with
    | .error e => .error e
    | .ok candidates =>
      if candidates.isEmpty then
        -- `return []` at line 247: no `_save_cache()` on this path
        .ok { articles := [], cache := cache, scr := scr, saves := 0 }
      else
        let r := fetchLoop ext searchTerm articleLimit candidates cache scr []
        -- `self._save_cache()` (line 317) runs exactly once on this path
        .ok { articles := r.1, cache := r.2.1, scr := r.2.2, saves := 1 }

/-- `fetch_articles`: the body wrapped in the outer `try/except Exception`
(lines 322–324), which logs and returns `[]`. -/
def fetchArticles (ext : Oracles) (cache : Cache) (scr : ScrState)
    (searchTerm : String) (articleLimit : Nat) : FetchOut :=
  match fetchBody ext cache scr searchTerm articleLimit with
  | .ok out => out
  | .error _ => { articles := [], cache := cache, scr := scr, saves := 0 }

/-- The raw candidate list the body of `fetch_articles` would process
(empty when a query raises or both queries come back empty). -/
def rawCandidates (ext : Oracles) (searchTerm : String) (articleLimit : Nat) : List RawArticle :=
  match ext.getEverything searchTerm (min (articleLimit * 5) 100) with
  | .error _ => []
  | .ok primary =>
    match (if primary.isEmpty then
             ext.getTopHeadlines searchTerm (min (articleLimit * 2) 20)
           else .ok primary) with
    | .error _ => []
    | .ok candidates => candidates

/-- The multi-term driver loop of `apify_main.main` (lines 19–22):
`for search_term in terms: all_articles.extend(fetch_articles(...))`. -/
def runTerms (ext : Oracles) (articleLimit : Nat) :
    List String → Cache → ScrState → List Article × Cache × ScrState
  | [], cache, scr => ([], cache, scr)
  | t :: ts, cache, scr =>
    let out := fetchArticles ext cache scr t articleLimit
    let rest := runTerms ext articleLimit ts out.cache out.scr
    (out.articles ++ rest.1, rest.2.1, rest.2.2)

/-! ## Concrete instances for closed evaluations -/

/-- The empty dedup cache. -/
def cache0 : Cache := { seenUrls := [], seenTitles := [], contentHashes := [] }

/-- The empty scraper state. -/
def scr0 : ScrState := { downloadedCache := [] }

/-- A raw candidate flagged as test data (`is_test_data = True`), with a
relevant title and non-empty snippet content. -/
def rawTest : RawArticle :=
  { title := "sba news", url := "http://t", content := "c", description := ""
    sourceName := "src", publishedAt := "2024-01-01", isTestData := true }

/-- A relevant raw candidate not flagged as test data. -/
def rawReal : RawArticle :=
  { title := "sba loan expands", url := "http://a", content := "body"
    description := "", sourceName := "src", publishedAt := "2024-01-02"
    isTestData := false }

/-- Baseline oracle set: a single test-data candidate, all downloads fail. -/
def oracleBase : Oracles :=
  { pyHash := fun _ => 0
    simRatio := fun _ _ => 0
    setEnum := id
    getEverything := fun _ _ => .ok [rawTest]
    getTopHeadlines := fun _ _ => .ok []
    fetchUrl := fun _ _ => none
    extract := fun _ => none
    nowIso := "2024-01-01T00:00:00" }

/-- Oracle set whose primary query raises. -/
def oracleRaise : Oracles :=
  { oracleBase with getEverything := fun _ _ => .error "boom" }

/-- Oracle set for which both queries return no candidates. -/
def oracleEmpty : Oracles :=
  { oracleBase with getEverything := fun _ _ => .ok [] }

/-- Oracle set with three relevant non-test candidates, the third
repeating the first URL; fingerprints are modelled by content length. -/
def oracleReal : Oracles :=
  { oracleBase with
      pyHash := fun s => (s.length : Int)
      getEverything := fun _ _ =>
        .ok [rawReal, { rawReal with title := "funding round", url := "http://b", content := "xx" },
             { rawReal with title := "capital markets" }] }

/-- Eleven content fingerprints, listed in their insertion order. -/
def hs11 : List Int := [0, 1, 2, 3, 4, 5, 6, 7, 8, 9, 10]

/-! ## Helper lemmas -/

/-- ASCII `Char.toLower` is idempotent. -/
theorem charToLowerIdem (c : Char) : c.toLower.toLower = c.toLower := by
  by_cases h : c.toNat ≥ 65 ∧ c.toNat ≤ 90
  · have h1 : c.toLower = Char.ofNat (c.toNat + 32) := by
      simp only [Char.toLower]; rw [if_pos h]
    have hv : (c.toNat + 32).isValidChar := Or.inl (by omega)
    have h2 : (Char.ofNat (c.toNat + 32)).toNat = c.toNat + 32 := by
      rw [Char.ofNat, dif_pos hv]; rfl
    have h3 : ¬ ((Char.ofNat (c.toNat + 32)).toNat ≥ 65 ∧
        (Char.ofNat (c.toNat + 32)).toNat ≤ 90) := by
      rw [h2]; omega
    rw [h1]
    conv_lhs => simp only [Char.toLower]
    rw [if_neg h3]
  · have h1 : c.toLower = c := by simp only [Char.toLower]; rw [if_neg h]
    rw [h1, h1]

/-- `pyLower` is idempotent (`text.lower()` on already-lowercased text). -/
theorem pyLowerIdem (s : String) : pyLower (pyLower s) = pyLower s := by
  unfold pyLower
  congr 1
  simp only [List.map_map, Function.comp_def, charToLowerIdem]

/-! ## Claim theorems -/

/-- **C1** (corrected).  Retry client (`_make_request` /
`_download_content` skeleton): when every one of the three tries fails,
the operation is attempted exactly `3` times, the backoff sleeps between
consecutive attempts are `2^k` seconds for `k` = number of attempts
already made — the sequence 2 s, 4 s (not 1 s, 2 s, 4 s) — and the client
returns `none` without raising. -/
theorem retry_exhausted_backoff {α : Type} (attempt : Nat → Option α)
    (h : ∀ k, k < 3 → attempt k = none) :
    makeRequest attempt = (none, [2, 4]) := by
  have h0 := h 0 (by omega)
  have h1 := h 1 (by omega)
  have h2 := h 2 (by omega)
  simp [makeRequest, retryGo, h0, h1, h2]

/-- **C1** witness: the amended backoff behaviour at a concrete
always-failing operation. -/
theorem retry_exhausted_backoff_witness :
    makeRequest (fun _ => (none : Option Unit)) = (none, [2, 4]) :=
  retry_exhausted_backoff (fun _ => none) (fun _ _ => rfl)

/-- **C1** counterexample: the sleep trace of an always-failing operation
is `[2, 4]`, which is not the `[1, 2, 4]` sequence the claim states. -/
theorem retry_backoff_not_one_two_four :
    (makeRequest (fun _ => (none : Option Unit))).2 = [2, 4] ∧
    (makeRequest (fun _ => (none : Option Unit))).2 ≠ [1, 2, 4] := by
  constructor <;> decide

/-- **C2** (code bug).  A candidate flagged `is_test_data = True` bypasses
the duplicate checks but does *not* bypass recording: with an empty dedup
cache, fetching the single test-data candidate `rawTest` records its URL,
title and content fingerprint, because the recording guard consults
`processed_article` — a dict that never carries the `is_test_data` key. -/
theorem testdata_still_recorded :
    rawTest.isTestData = true ∧
    (fetchArticles oracleBase cache0 scr0 "sba" 5).cache =
      { seenUrls := ["http://t"], seenTitles := ["sba news"], contentHashes := [0] } := by
  constructor
  · rfl
  · decide

/-- **C5** theorem (code bug).  The fuzzy content-duplicate window is not
"the 10 most recently recorded fingerprints": the store is an unordered
`set`, and two legitimate enumerations of the same eleven fingerprints
(identity and reversal, a permutation) make the check disagree on the
same cache and candidate content. -/
theorem content_window_order_dependent :
    hs11.reverse.Perm hs11 ∧
    isSimilarContent (fun _ => 99) (fun _ s => if s = "0" then 1 else 0) id
      hs11 "c" = false ∧
    isSimilarContent (fun _ => 99) (fun _ s => if s = "0" then 1 else 0) List.reverse
      hs11 "c" = true := by
  refine ⟨List.reverse_perm hs11, by decide, by decide⟩

/-- `mkRat` on a natural numerator and denominator is ordinary division in `ℚ`. -/
theorem mkRat_natCast_div (m n : ℕ) : mkRat (m : Int) n = (m : ℚ) / (n : ℚ) := by
  rw [Rat.mkRat_eq_div]; norm_num

/-- **C7** (confirmed).  Two titles are classified as similar iff they
are identical strings, or both normalized word sets (lowercased,
whitespace-split, stop words dropped) are non-empty and
`|intersection| / min(|words1|, |words2|)` is at least 0.6. -/
theorem title_similarity_equiv (title1 title2 : String) :
    isSimilarTitle title1 title2 = true ↔
      title1 = title2 ∨
      ((getTitleWords title1).Nonempty ∧ (getTitleWords title2).Nonempty ∧
        (3 : ℚ)/5 ≤ ((getTitleWords title1 ∩ getTitleWords title2).card : ℚ) /
          ((min (getTitleWords title1).card (getTitleWords title2).card : ℕ) : ℚ)) := by
  unfold isSimilarTitle
  by_cases heq : title1 = title2
  · simp [heq]
  · rw [if_neg heq]
    by_cases hz : (getTitleWords title1).card = 0 ∨ (getTitleWords title2).card = 0
    · rw [if_pos hz]
      simp only [Bool.false_eq_true, false_iff]
      rintro (h | ⟨h1, h2, _⟩)
      · exact heq h
      · rcases hz with hz | hz
        · rw [Finset.card_eq_zero] at hz; exact h1.ne_empty hz
        · rw [Finset.card_eq_zero] at hz; exact h2.ne_empty hz
    · rw [if_neg hz]
      push_neg at hz
      have h1 : (getTitleWords title1).Nonempty := Finset.card_pos.mp (by omega)
      have h2 : (getTitleWords title2).Nonempty := Finset.card_pos.mp (by omega)
      have hmk : mkRat ((getTitleWords title1 ∩ getTitleWords title2).card : Int)
          (min (getTitleWords title1).card (getTitleWords title2).card) =
          ((getTitleWords title1 ∩ getTitleWords title2).card : ℚ) /
          ((min (getTitleWords title1).card (getTitleWords title2).card : ℕ) : ℚ) :=
        mkRat_natCast_div _ _
      have hmk35 : mkRat (3 : Int) 5 = (3 : ℚ)/5 := by norm_num [Rat.mkRat_eq_div]
      simp only [decide_eq_true_eq, ge_iff_le, hmk, hmk35, heq, false_or]
      constructor
      · intro hge; exact ⟨h1, h2, hge⟩
      · rintro ⟨_, _, hge⟩; exact hge

/-- **C6** (confirmed).  `_is_relevant_article` returns `true` iff the
staged short-circuit algorithm does: over the lowercased
`title + " " + description` text, (1) some domain-vocabulary term occurs
in the text, or (2) some word of some comma-separated phrase of the
search term occurs in the text, or (3) the stop-word-filtered search
words are non-empty and the fraction of them occurring in the text is at
least 0.15.  With zero meaningful search words and neither earlier branch
firing, the result is `false` (the third disjunct requires non-emptiness). -/
theorem relevance_staged_equiv (title description searchTerm : String) :
    isRelevantArticle title description searchTerm = true ↔
      (∃ t ∈ businessRelatedTerms, strIn t (relevanceText title description) = true) ∨
      (∃ w ∈ searchTermWords searchTerm, strIn w (relevanceText title description) = true) ∨
      ((meaningfulWords searchTerm).Nonempty ∧
        (3 : ℚ)/20 ≤ (((meaningfulWords searchTerm).filter
            (fun w => strIn w (relevanceText title description) = true)).card : ℚ) /
          ((meaningfulWords searchTerm).card : ℚ)) := by
  unfold isRelevantArticle
  dsimp only
  rw [show pyLower (relevanceText title description) = relevanceText title description from
    pyLowerIdem _]
  by_cases hb1 : businessRelatedTerms.any
      (fun t => strIn t (relevanceText title description)) = true
  · simp only [hb1, if_true, true_iff]
    exact Or.inl (List.any_eq_true.mp hb1)
  · rw [Bool.not_eq_true] at hb1
    rw [hb1]
    simp only [Bool.false_eq_true, if_false]
    by_cases hb2 : (searchTermWords searchTerm).any
        (fun w => strIn w (relevanceText title description)) = true
    · simp only [hb2, if_true, true_iff]
      exact Or.inr (Or.inl (List.any_eq_true.mp hb2))
    · rw [Bool.not_eq_true] at hb2
      rw [hb2]
      simp only [Bool.false_eq_true, if_false]
      have hno1 : ¬ ∃ t ∈ businessRelatedTerms,
          strIn t (relevanceText title description) = true := by
        rw [← List.any_eq_true, hb1]; simp
      have hno2 : ¬ ∃ w ∈ searchTermWords searchTerm,
          strIn w (relevanceText title description) = true := by
        rw [← List.any_eq_true, hb2]; simp
      by_cases hz : (meaningfulWords searchTerm).card = 0
      · simp only [if_pos hz, Bool.false_eq_true, false_iff]
        rintro (h | h | ⟨hne, _⟩)
        · exact hno1 h
        · exact hno2 h
        · rw [Finset.card_eq_zero] at hz; exact hne.ne_empty hz
      · simp only [if_neg hz]
        have hne : (meaningfulWords searchTerm).Nonempty := Finset.card_pos.mp (by omega)
        have hmk : mkRat (((meaningfulWords searchTerm).filter
              (fun w => strIn w (relevanceText title description) = true)).card : Int)
            (meaningfulWords searchTerm).card =
            (((meaningfulWords searchTerm).filter
              (fun w => strIn w (relevanceText title description) = true)).card : ℚ) /
            ((meaningfulWords searchTerm).card : ℚ) := mkRat_natCast_div _ _
        have hmk320 : mkRat (3 : Int) 20 = (3 : ℚ)/20 := by norm_num [Rat.mkRat_eq_div]
        simp only [decide_eq_true_eq, ge_iff_le, hmk, hmk320]
        constructor
        · intro hge; exact Or.inr (Or.inr ⟨hne, hge⟩)
        · rintro (h | h | ⟨_, hge⟩)
          · exact absurd h hno1
          · exact absurd h hno2
          · exact hge

/-- **C8** (confirmed).  When the download-and-extract pipeline for an
article's URL yields nothing (and the URL is not in the fetch cache), the
enricher returns exactly the original article fields plus
`scrapingSuccess = false`, never raises (it is a total function), and
leaves the fetch cache unchanged — so a later call for the same URL
re-attempts the download. -/
theorem enrich_failure_preserves (ext : Oracles) (st : ScrState) (a : Article)
    (hurl : a.url ≠ "")
    (hmiss : dictGet st.downloadedCache a.url = none)
    (hfail : optTruthy (ext.extract (downloadContent ext a.url).1) = false) :
    enrichArticle ext st a = ({ a with scrapingSuccess := some false }, st) := by
  unfold enrichArticle
  rw [if_neg hurl]
  dsimp only
  rw [hmiss]
  dsimp only
  rw [hfail]
  simp only [Bool.false_eq_true, if_false]

/-- **C8** witness: enrichment failure at a concrete article whose
download always fails. -/
theorem enrich_failure_witness :
    enrichArticle oracleBase scr0 (mkProcessed rawReal "sba") =
      ({ mkProcessed rawReal "sba" with scrapingSuccess := some false }, scr0) :=
  enrich_failure_preserves oracleBase scr0 (mkProcessed rawReal "sba")
    (by decide) rfl rfl

/-- **C3** (confirmed).  If the body of `fetch_articles` raises for a
term, the call returns the empty article list (with the entry cache and
scraper state), and in the multi-term driver loop the failing term
contributes nothing while every other term is processed exactly as if
the failing term were absent. -/
theorem fetch_term_failure_isolated (ext : Oracles) (cache : Cache) (scr : ScrState)
    (term : String) (limit : Nat) (ts : List String) (e : PyErr)
    (h : fetchBody ext cache scr term limit = .error e) :
    fetchArticles ext cache scr term limit =
      { articles := [], cache := cache, scr := scr, saves := 0 } ∧
    runTerms ext limit (term :: ts) cache scr = runTerms ext limit ts cache scr := by
  have h1 : fetchArticles ext cache scr term limit =
      { articles := [], cache := cache, scr := scr, saves := 0 } := by
    unfold fetchArticles; rw [h]
  refine ⟨h1, ?_⟩
  conv_lhs => unfold runTerms
  rw [h1]
  simp only [List.nil_append]

/-- **C3** witness: a concrete raising primary query yields `[]` for the
term and leaves the rest of a two-term run unchanged. -/
theorem fetch_term_failure_witness :
    fetchArticles oracleRaise cache0 scr0 "sba" 3 =
      { articles := [], cache := cache0, scr := scr0, saves := 0 } ∧
    runTerms oracleRaise 3 ["sba", "u"] cache0 scr0 =
      runTerms oracleRaise 3 ["u"] cache0 scr0 :=
  fetch_term_failure_isolated oracleRaise cache0 scr0 "sba" 3 ["u"] "boom" rfl

/-- **C9** (corrected).  The dedup cache is written back exactly once
iff the call obtains a non-empty candidate list (from the primary query
or the fallback); it is not written at all when a query raises or when
both queries return no candidates (early `return []`). -/
theorem cache_saved_once_iff_candidates (ext : Oracles) (cache : Cache) (scr : ScrState)
    (term : String) (limit : Nat) :
    (fetchArticles ext cache scr term limit).saves =
      (match ext.getEverything term (min (limit * 5) 100) with
       | .error _ => 0
       | .ok primary =>
         match (if primary.isEmpty then ext.getTopHeadlines term (min (limit * 2) 20)
                else .ok primary) with
         | .error _ => 0
         | .ok candidates => if candidates.isEmpty then 0 else 1) := by
  unfold fetchArticles fetchBody
  rcases hE : ext.getEverything term (min (limit * 5) 100) with e | primary
  · rfl
  · rcases hF : (if primary.isEmpty then ext.getTopHeadlines term (min (limit * 2) 20)
        else Except.ok primary) with e | candidates
    · simp only [hF]
    · simp only [hF]
      by_cases hc : candidates.isEmpty
      · simp [hc]
      · simp [hc]

/-- **C9** counterexample: with both queries returning no candidates the
call performs zero cache saves, not the "exactly once" the claim states. -/
theorem cache_not_saved_on_empty :
    (fetchArticles oracleEmpty cache0 scr0 "t" 3).saves = 0 ∧
    (fetchArticles oracleEmpty cache0 scr0 "t" 3).saves ≠ 1 := by
  constructor <;> decide

/-- Loop invariant: starting below the limit, the accumulated article
list never exceeds the limit. -/
theorem fetchLoop_length_le (ext : Oracles) (term : String) (limit : Nat)
    (raws : List RawArticle) :
    ∀ (cache : Cache) (scr : ScrState) (acc : List Article),
    acc.length < limit →
    (fetchLoop ext term limit raws cache scr acc).1.length ≤ limit := by
  induction raws with
  | nil =>
    intro cache scr acc h
    unfold fetchLoop
    exact Nat.le_of_lt h
  | cons raw rest ih =>
    intro cache scr acc h
    unfold fetchLoop
    split
    · exact ih cache scr acc h
    split
    · exact ih cache scr acc h
    split
    · exact ih cache scr acc h
    split
    · exact ih cache scr acc h
    dsimp only
    split
    next hbreak =>
      simp only [List.length_append, List.length_cons, List.length_nil]
      omega
    next hbreak =>
      exact ih _ _ _ (Nat.lt_of_not_ge hbreak)

/-- Once the loop has produced `limit` accepted articles it breaks, so
appending further raw candidates does not change the outcome. -/
theorem fetchLoop_extra_noop (ext : Oracles) (term : String) (limit : Nat)
    (raws : List RawArticle) :
    ∀ (extra : List RawArticle) (cache : Cache) (scr : ScrState) (acc : List Article),
    acc.length < limit →
    (fetchLoop ext term limit raws cache scr acc).1.length = limit →
    fetchLoop ext term limit (raws ++ extra) cache scr acc =
      fetchLoop ext term limit raws cache scr acc := by
  induction raws with
  | nil =>
    intro extra cache scr acc h hl
    unfold fetchLoop at hl
    exact absurd hl (Nat.ne_of_lt h)
  | cons raw rest ih =>
    intro extra cache scr acc h hl
    rw [List.cons_append]
    unfold fetchLoop
    unfold fetchLoop at hl
    split
    next g1 =>
      rw [if_pos g1] at hl
      exact ih extra cache scr acc h hl
    next g1 =>
      rw [if_neg g1] at hl
      split
      next g2 =>
        rw [if_pos g2] at hl
        exact ih extra cache scr acc h hl
      next g2 =>
        rw [if_neg g2] at hl
        split
        next g3 =>
          rw [if_pos g3] at hl
          exact ih extra cache scr acc h hl
        next g3 =>
          rw [if_neg g3] at hl
          split
          next g4 =>
            rw [if_pos g4] at hl
            exact ih extra cache scr acc h hl
          next g4 =>
            rw [if_neg g4] at hl
            dsimp only at hl ⊢
            by_cases hbreak :
                (acc ++ [(enrichArticle ext scr (mkProcessed raw term)).1]).length ≥ limit
            · rw [if_pos hbreak] at hl ⊢
              rw [if_pos hbreak]
            · rw [if_neg hbreak] at hl ⊢
              rw [if_neg hbreak]
              exact ih extra _ _ _ (Nat.lt_of_not_ge hbreak) hl

/-- **C4** (corrected, for `limit ≥ 1`).  `fetch_articles` returns at
most `limit` articles, and processing stops as soon as `limit` accepted
articles have been produced: once the loop output reaches `limit`,
appending further raw candidates leaves the result unchanged.  (For
`limit = 0` the bound fails, see the counterexample: the break is tested
only after an article is appended.) -/
theorem fetch_limit_bound (ext : Oracles) (cache : Cache) (scr : ScrState)
    (term : String) (limit : Nat) (raws extra : List RawArticle)
    (h : 1 ≤ limit) :
    (fetchArticles ext cache scr term limit).articles.length ≤ limit ∧
    ((fetchLoop ext term limit raws cache scr []).1.length = limit →
      fetchLoop ext term limit (raws ++ extra) cache scr [] =
        fetchLoop ext term limit raws cache scr []) := by
  constructor
  · unfold fetchArticles fetchBody
    rcases hE : ext.getEverything term (min (limit * 5) 100) with e | primary
    · simp
    · dsimp only
      rcases hF : (if primary.isEmpty then ext.getTopHeadlines term (min (limit * 2) 20)
          else Except.ok primary) with e | candidates
      · simp
      · dsimp only
        by_cases hc : candidates.isEmpty
        · rw [if_pos hc]
          simp
        · rw [if_neg hc]
          dsimp only
          exact fetchLoop_length_le ext term limit candidates cache scr [] (by simpa using h)
  · intro hl
    exact fetchLoop_extra_noop ext term limit raws extra cache scr [] (by simpa using h) hl

/-- **C4** witness: the amended bound at `limit = 1` with a concrete
candidate list and a concrete extra candidate. -/
theorem fetch_limit_bound_witness :
    ((fetchArticles oracleBase cache0 scr0 "sba" 1).articles.length ≤ 1 ∧
      ((fetchLoop oracleBase "sba" 1 [rawTest] cache0 scr0 []).1.length = 1 →
        fetchLoop oracleBase "sba" 1 ([rawTest] ++ [rawReal]) cache0 scr0 [] =
          fetchLoop oracleBase "sba" 1 [rawTest] cache0 scr0 [])) :=
  fetch_limit_bound oracleBase cache0 scr0 "sba" 1 [rawTest] [rawReal] (by decide)

/-- **C4** counterexample: with `limit = 0` and one acceptable raw
candidate, `fetch_articles` returns 1 article — more than `limit` —
because the `break` is checked only after appending. -/
theorem fetch_limit_zero_violated :
    (fetchArticles oracleBase cache0 scr0 "sba" 0).articles.length = 1 ∧
    ¬((fetchArticles oracleBase cache0 scr0 "sba" 0).articles.length ≤ 0) := by
  constructor <;> decide

/-- `enrich_article` never alters the `url` field. -/
theorem enrich_preserves_url (ext : Oracles) (st : ScrState) (a : Article) :
    ((enrichArticle ext st a).1).url = a.url := by
  unfold enrichArticle
  split
  · rfl
  · dsimp only
    split <;> rfl

theorem mem_setInsert_self [DecidableEq α] (x : α) (s : List α) : x ∈ setInsert x s := by
  unfold setInsert
  split
  · assumption
  · simp

theorem mem_setInsert_of_mem [DecidableEq α] {y : α} (x : α) {s : List α} (h : y ∈ s) :
    y ∈ setInsert x s := by
  unfold setInsert
  split
  · exact h
  · exact List.mem_append_left _ h

/-- Loop invariant for URL deduplication: with no test-data candidates,
accepted-article URLs stay duplicate-free and are always recorded in
`seenUrls` before the next candidate is examined. -/
theorem fetchLoop_urls_invariant (ext : Oracles) (term : String) (limit : Nat)
    (raws : List RawArticle) :
    ∀ (cache : Cache) (scr : ScrState) (acc : List Article),
    (∀ r ∈ raws, r.isTestData = false) →
    (acc.map Article.url).Nodup →
    (∀ a ∈ acc, a.url ∈ cache.seenUrls) →
    (((fetchLoop ext term limit raws cache scr acc).1.map Article.url).Nodup ∧
      ∀ a ∈ (fetchLoop ext term limit raws cache scr acc).1,
        a.url ∈ (fetchLoop ext term limit raws cache scr acc).2.1.seenUrls) := by
  induction raws with
  | nil =>
    intro cache scr acc _ hnd hmem
    unfold fetchLoop
    exact ⟨hnd, hmem⟩
  | cons raw rest ih =>
    intro cache scr acc hraw hnd hmem
    have hrawhd : raw.isTestData = false := hraw raw (List.mem_cons_self _ _)
    have hrawtl : ∀ r ∈ rest, r.isTestData = false :=
      fun r hr => hraw r (List.mem_cons_of_mem _ hr)
    unfold fetchLoop
    split
    next => exact ih cache scr acc hrawtl hnd hmem
    next g1 =>
      split
      next => exact ih cache scr acc hrawtl hnd hmem
      next =>
        split
        next => exact ih cache scr acc hrawtl hnd hmem
        next =>
          split
          next => exact ih cache scr acc hrawtl hnd hmem
          next =>
            have hnotseen : raw.url ∉ cache.seenUrls := by
              intro hin
              apply g1
              rw [hrawhd]
              simp [hin]
            have hurl : (enrichArticle ext scr (mkProcessed raw term)).1.url = raw.url :=
              enrich_preserves_url ext scr (mkProcessed raw term)
            dsimp only
            rw [if_neg hnotseen]
            have hnd' : ((acc ++ [(enrichArticle ext scr (mkProcessed raw term)).1]).map
                Article.url).Nodup := by
              rw [List.map_append, List.nodup_append]
              refine ⟨hnd, by simp, ?_⟩
              intro x hx hx'
              simp only [List.map_cons, List.map_nil, List.mem_singleton, hurl] at hx'
              subst hx'
              rcases List.mem_map.mp hx with ⟨a, ha, hxa⟩
              exact hnotseen (hxa ▸ hmem a ha)
            have hmem' : ∀ a ∈ acc ++ [(enrichArticle ext scr (mkProcessed raw term)).1],
                a.url ∈ setInsert raw.url cache.seenUrls := by
              intro a ha
              rcases List.mem_append.mp ha with ha | ha
              · exact mem_setInsert_of_mem raw.url (hmem a ha)
              · rw [List.mem_singleton] at ha
                subst ha
                rw [hurl]
                exact mem_setInsert_self raw.url cache.seenUrls
            by_cases hbreak :
                (acc ++ [(enrichArticle ext scr (mkProcessed raw term)).1]).length ≥ limit
            · rw [if_pos hbreak]
              exact ⟨hnd', hmem'⟩
            · rw [if_neg hbreak]
              exact ih _ _ _ hrawtl hnd' hmem'

/-- **C10** (confirmed).  When no raw candidate is flagged as test data,
the articles returned by `fetch_articles` have pairwise distinct URLs,
and after the call every returned article's URL is in `seenUrls`: each
accepted URL is inserted into the cache before the next candidate is
checked, so a later candidate with the same URL in the same batch is
rejected as a duplicate. -/
theorem fetch_urls_distinct (ext : Oracles) (cache : Cache) (scr : ScrState)
    (term : String) (limit : Nat)
    (h : ∀ r ∈ rawCandidates ext term limit, r.isTestData = false) :
    (((fetchArticles ext cache scr term limit).articles.map Article.url).Nodup ∧
      ∀ a ∈ (fetchArticles ext cache scr term limit).articles,
        a.url ∈ (fetchArticles ext cache scr term limit).cache.seenUrls) := by
  unfold fetchArticles fetchBody
  unfold rawCandidates at h
  rcases hE : ext.getEverything term (min (limit * 5) 100) with e | primary
  · simp
  · dsimp only
    rw [hE] at h
    dsimp only at h
    rcases hF : (if primary.isEmpty then ext.getTopHeadlines term (min (limit * 2) 20)
        else Except.ok primary) with e | candidates
    · simp
    · rw [hF] at h
      dsimp only at h
      dsimp only
      by_cases hc : candidates.isEmpty
      · rw [if_pos hc]
        simp
      · rw [if_neg hc]
        dsimp only
        exact fetchLoop_urls_invariant ext term limit candidates cache scr [] h
          (by simp) (by simp)

/-- **C10** witness: three concrete non-test candidates, the third
repeating the first URL, yield two articles with distinct recorded URLs. -/
theorem fetch_urls_distinct_witness :
    (((fetchArticles oracleReal cache0 scr0 "sba" 5).articles.map Article.url).Nodup ∧
      ∀ a ∈ (fetchArticles oracleReal cache0 scr0 "sba" 5).articles,
        a.url ∈ (fetchArticles oracleReal cache0 scr0 "sba" 5).cache.seenUrls) :=
  fetch_urls_distinct oracleReal cache0 scr0 "sba" 5 (by decide)
